import Mathlib

/-!
Verification development for the FMOD example repository.

The first part embeds the `AudioManager` class of
`src/examples/audio_manager.cpp` as a pure state machine: the FMOD engine
is modelled as an oracle for resource creation, channels are an append-only
list of channel records indexed by allocation order, and every engine
interaction is logged in a trace.  The second part embeds the orbit
simulation of `src/examples/3d_audio.cpp` over the real numbers.
-/

namespace AudioManager

/-- An engine interaction issued by the audio manager
(`FMOD::System` / `FMOD::Channel` / `FMOD::ChannelGroup` calls). -/
inductive ACall where
  | createSound (path : String) (isStream : Bool)
  | playSound (group : Nat)
  | setChVolume (ch : Nat) (v : ℚ)
  | setMode (ch : Nat) (loopOn : Bool)
  | stopCh (ch : Nat)
  | setChPaused (ch : Nat) (paused : Bool)
  | setGroupVolume (group : Nat) (v : ℚ)
  | isPlayingQuery (ch : Nat)
  deriving DecidableEq

/-- One playback channel as the manager can observe it through the engine:
whether it is playing, whether it is paused, and the volume / loop mode the
manager pushed to it. -/
structure Channel where
  playing : Bool
  paused : Bool
  volume : ℚ
  loopOn : Bool
  deriving DecidableEq

/-- State of the `AudioManager` singleton together with the engine-visible
state it controls.  `sounds` is the cache map (name to engine sound handle),
`channels` is the pool of channels ever created (index = allocation order),
`musicIds` records which channel indices were created by `playMusic`,
`currentMusicChannel` is the music slot, the four volume fields are the
channel-group volumes, `creationCalls` counts engine resource-creation
calls, and `trace` logs every engine call in order. -/
structure AMState where
  sounds : List (String × Nat)
  channels : List Channel
  musicIds : List Nat
  currentMusicChannel : Option Nat
  sfxVolume : ℚ
  musicVolume : ℚ
  voiceVolume : ℚ
  masterVolume : ℚ
  creationCalls : Nat
  trace : List ACall
  deriving DecidableEq

/-- The state right after `initialize()` succeeds: empty cache, no channels,
empty music slot, all group volumes at the engine default 1. -/
def initState : AMState :=
  { sounds := [], channels := [], musicIds := [], currentMusicChannel := none,
    sfxVolume := 1, musicVolume := 1, voiceVolume := 1, masterVolume := 1,
    creationCalls := 0, trace := [] }

/-- `isPlaying` as observed on channel index `i` of a channel list: a
released / never-allocated index reports not playing. -/
def listPlaying (cs : List Channel) (i : Nat) : Bool :=
  (cs[i]?.map Channel.playing).getD false

/-- `isPlaying` as observed on channel index `i` of the manager state. -/
def chPlaying (s : AMState) (i : Nat) : Bool :=
  listPlaying s.channels i

/-- Update channel `i` in place (no-op on an out-of-range index, matching
the engine's tolerance of invalid handles). -/
def setChannel (cs : List Channel) (i : Nat) (f : Channel → Channel) : List Channel :=
  match cs[i]? with
  | some c => cs.set i (f c)
  | none => cs

/-- `AudioManager::loadSound` (audio_manager.cpp:99-124).  `engine` is the
oracle for `createSound` / `createStream`: given the file path and the
streaming flag it returns a sound handle or `none` on failure. -/
def loadSound (engine : String → Bool → Option Nat) (s : AMState)
    (name path : String) (isStream : Bool) : Bool × AMState :=
  if (s.sounds.lookup name).isSome then (true, s)
  else
    match engine path isStream with
    | none =>
        (false, { s with creationCalls := s.creationCalls + 1,
                         trace := s.trace ++ [ACall.createSound path isStream] })
    | some h =>
        (true, { s with sounds := (name, h) :: s.sounds,
                        creationCalls := s.creationCalls + 1,
                        trace := s.trace ++ [ACall.createSound path isStream] })

/-- `AudioManager::playSFX` (audio_manager.cpp:127-139): on a cached name,
play a fresh fire-and-forget channel on the SFX group (group id 0) and set
its volume; on an unknown name, report the error and do nothing. -/
def playSFX (s : AMState) (name : String) (volume : ℚ) : AMState :=
  if (s.sounds.lookup name).isSome then
    { s with channels := s.channels ++ [⟨true, false, volume, false⟩],
             trace := s.trace ++ [ACall.playSound 0,
                                  ACall.setChVolume s.channels.length volume] }
  else s

/-- The "stop current music if playing" block of `AudioManager::playMusic`
(audio_manager.cpp:148-155): when the slot holds a channel, query its
liveness and stop it if it reports playing. -/
def stopCurrentIfPlaying (s : AMState) : AMState :=
  match s.currentMusicChannel with
  | some ch =>
      if chPlaying s ch then
        { s with channels := setChannel s.channels ch (fun c => { c with playing := false }),
                 trace := s.trace ++ [ACall.isPlayingQuery ch, ACall.stopCh ch] }
      else { s with trace := s.trace ++ [ACall.isPlayingQuery ch] }
  | none => s

/-- The "play new music" block of `AudioManager::playMusic`
(audio_manager.cpp:157-169): play the sound on the Music group (group id 1)
into the slot, then push volume and loop mode to the new channel. -/
def playNewMusic (s : AMState) (loopOn : Bool) (volume : ℚ) : AMState :=
  { s with channels := s.channels ++ [⟨true, false, volume, loopOn⟩],
           musicIds := s.channels.length :: s.musicIds,
           currentMusicChannel := some s.channels.length,
           trace := s.trace ++ [ACall.playSound 1,
                                ACall.setChVolume s.channels.length volume,
                                ACall.setMode s.channels.length loopOn] }

/-- `AudioManager::playMusic` (audio_manager.cpp:142-170): on a cached name,
stop the current music if it is playing, then play the new one into the
slot; on an unknown name, report the error and do nothing. -/
def playMusic (s : AMState) (name : String) (loopOn : Bool) (volume : ℚ) : AMState :=
  if (s.sounds.lookup name).isSome then
    playNewMusic (stopCurrentIfPlaying s) loopOn volume
  else s

/-- `AudioManager::stopMusic` (audio_manager.cpp:173-178): stop the slot's
channel and clear the slot; no-op when the slot is empty. -/
def stopMusic (s : AMState) : AMState :=
  match s.currentMusicChannel with
  | some ch =>
      { s with channels := setChannel s.channels ch (fun c => { c with playing := false }),
               currentMusicChannel := none,
               trace := s.trace ++ [ACall.stopCh ch] }
  | none => s

/-- `AudioManager::pauseMusic` (audio_manager.cpp:181-185): forward the
pause flag to the slot's channel; no-op when the slot is empty. -/
def pauseMusic (s : AMState) (p : Bool) : AMState :=
  match s.currentMusicChannel with
  | some ch =>
      { s with channels := setChannel s.channels ch (fun c => { c with paused := p }),
               trace := s.trace ++ [ACall.setChPaused ch p] }
  | none => s

/-- The `Category` enumerator values (audio_manager.cpp:54-58); the argument
is modelled as the underlying machine integer so that out-of-range values
can be discussed. -/
def CATEGORY_SFX : Int := 0

/-- `Category::CATEGORY_MUSIC` underlying value. -/
def CATEGORY_MUSIC : Int := 1

/-- `Category::CATEGORY_VOICE` underlying value. -/
def CATEGORY_VOICE : Int := 2

/-- The three named channel groups (master is kept separately, as in the
class, which stores `masterGroup` outside `getChannelGroup`). -/
inductive ChannelGroupId where
  | sfx
  | music
  | voice
  deriving DecidableEq

/-- `AudioManager::getChannelGroup` (audio_manager.cpp:234-241): the switch
over the category, with the default branch returning the null group. -/
def getChannelGroup (category : Int) : Option ChannelGroupId :=
  if category = CATEGORY_SFX then some ChannelGroupId.sfx
  else if category = CATEGORY_MUSIC then some ChannelGroupId.music
  else if category = CATEGORY_VOICE then some ChannelGroupId.voice
  else none

/-- `AudioManager::setCategoryVolume` (audio_manager.cpp:188-193): resolve
the group; if it is non-null, push the volume to the engine unchanged
(group ids 0,1,2 in the trace); a null group is a silent no-op. -/
def setCategoryVolume (s : AMState) (category : Int) (volume : ℚ) : AMState :=
  match getChannelGroup category with
  | some ChannelGroupId.sfx =>
      { s with sfxVolume := volume, trace := s.trace ++ [ACall.setGroupVolume 0 volume] }
  | some ChannelGroupId.music =>
      { s with musicVolume := volume, trace := s.trace ++ [ACall.setGroupVolume 1 volume] }
  | some ChannelGroupId.voice =>
      { s with voiceVolume := volume, trace := s.trace ++ [ACall.setGroupVolume 2 volume] }
  | none => s

/-- `AudioManager::setMasterVolume` (audio_manager.cpp:196-200): push the
volume to the master group unchanged (group id 3 in the trace). -/
def setMasterVolume (s : AMState) (volume : ℚ) : AMState :=
  { s with masterVolume := volume, trace := s.trace ++ [ACall.setGroupVolume 3 volume] }

/-- The clamp-to-[0,1] function that the specification says the volume
setters apply before storing a value; stated here only to compare the
specified behaviour against the embedded code. -/
def clamp01 (v : ℚ) : ℚ := max 0 (min 1 v)

/-- The public operations a caller can perform on the manager after
initialization, used to quantify over call sequences. -/
inductive Op where
  | load (name path : String) (isStream : Bool)
  | sfx (name : String) (volume : ℚ)
  | music (name : String) (loopOn : Bool) (volume : ℚ)
  | pause (p : Bool)
  | stopM
  | setVol (category : Int) (volume : ℚ)
  | setMaster (volume : ℚ)

/-- Apply one public operation to the state. -/
def applyOp (engine : String → Bool → Option Nat) (s : AMState) : Op → AMState
  | Op.load n p st => (loadSound engine s n p st).2
  | Op.sfx n v => playSFX s n v
  | Op.music n l v => playMusic s n l v
  | Op.pause p => pauseMusic s p
  | Op.stopM => stopMusic s
  | Op.setVol c v => setCategoryVolume s c v
  | Op.setMaster v => setMasterVolume s v

/-- Run a call sequence from the freshly initialized manager. -/
def run (engine : String → Bool → Option Nat) (ops : List Op) : AMState :=
  ops.foldl (applyOp engine) initState

/-- At most one music channel is live: any two playing channels created by
`playMusic` coincide. -/
def atMostOneActiveMusic (s : AMState) : Prop :=
  ∀ i ∈ s.musicIds, ∀ j ∈ s.musicIds,
    chPlaying s i = true → chPlaying s j = true → i = j

/-- Invariant tying the music slot to the channel pool, on the components:
music channel indices are allocated, and a playing music channel is the
slot's channel. -/
def MusicInvC (cs : List Channel) (mids : List Nat) (cur : Option Nat) : Prop :=
  (∀ i ∈ mids, i < cs.length) ∧
  (∀ i ∈ mids, listPlaying cs i = true → cur = some i)

/-- Invariant tying the music slot to the channel pool: music channel
indices are allocated, and a playing music channel is the slot's channel. -/
def MusicInv (s : AMState) : Prop :=
  MusicInvC s.channels s.musicIds s.currentMusicChannel

/-- Engine oracle used for concrete witnesses: every creation succeeds with
handle 0. -/
def engineOk : String → Bool → Option Nat := fun _ _ => some 0

/-- Engine oracle used for concrete witnesses: every creation fails. -/
def engineFail : String → Bool → Option Nat := fun _ _ => none

/-- A concrete state with two cached sounds and music "a" playing in the
slot, used to instantiate hypotheses of the music theorems. -/
def stateW : AMState :=
  run engineOk [Op.load "a" "pa" false, Op.load "b" "pb" true, Op.music "a" true 1]

end AudioManager

namespace Spatial

/-- `radius` constant of the orbit demo (3d_audio.cpp:89). -/
noncomputable def radius : ℝ := 10

/-- `angularSpeed` constant (3d_audio.cpp:113): one rotation every 10 s. -/
noncomputable def angularSpeed : ℝ := 2 * Real.pi / 10

/-- `updateInterval` constant (3d_audio.cpp:91): 50 ms per tick. -/
noncomputable def updateInterval : ℝ := 1 / 20

/-- `soundPos` as computed each tick (3d_audio.cpp:107-110): the emitter
position on the orbit at the given angle. -/
noncomputable def soundPos (angle : ℝ) : ℝ × ℝ × ℝ :=
  (radius * Real.cos angle, 0, radius * Real.sin angle)

/-- `soundVel` as computed each tick (3d_audio.cpp:114-117): the doppler
velocity of the emitter at the given angle. -/
noncomputable def soundVel (angle : ℝ) : ℝ × ℝ × ℝ :=
  (-(radius * angularSpeed * Real.sin angle), 0, radius * angularSpeed * Real.cos angle)

/-- Euclidean norm of a 3-vector, as in the distance computation
(3d_audio.cpp:129-131). -/
noncomputable def norm3 (v : ℝ × ℝ × ℝ) : ℝ :=
  Real.sqrt (v.1 ^ 2 + v.2.1 ^ 2 + v.2.2 ^ 2)

/-- Dot product of two 3-vectors. -/
noncomputable def dot3 (u v : ℝ × ℝ × ℝ) : ℝ :=
  u.1 * v.1 + u.2.1 * v.2.1 + u.2.2 * v.2.2

/-- The per-tick angle update (3d_audio.cpp:141-145): advance by
`angularSpeed * updateInterval`, subtracting one full turn when the result
exceeds `2 * pi`. -/
noncomputable def stepAngle (angle : ℝ) : ℝ :=
  if angle + angularSpeed * updateInterval > 2 * Real.pi then
    angle + angularSpeed * updateInterval - 2 * Real.pi
  else
    angle + angularSpeed * updateInterval

/-- An engine call made by the 3D-audio program, in program order. -/
inductive ECall where
  | createSound (path : String)
  | setMinMaxDistance (minDist maxDist : ℝ)
  | playSound
  | setListenerAttributes (pos vel fwd up : ℝ × ℝ × ℝ)
  | set3DAttributes (pos vel : ℝ × ℝ × ℝ)
  | systemUpdate
  | stopChannel
  | releaseSound
  | releaseSystem

/-- Listener position (3d_audio.cpp:78): the origin. -/
noncomputable def listenerPos : ℝ × ℝ × ℝ := (0, 0, 0)

/-- Listener velocity (3d_audio.cpp:79): at rest. -/
noncomputable def listenerVel : ℝ × ℝ × ℝ := (0, 0, 0)

/-- Listener forward vector (3d_audio.cpp:80): down the Z axis. -/
noncomputable def listenerForward : ℝ × ℝ × ℝ := (0, 0, 1)

/-- Listener up vector (3d_audio.cpp:81): the Y axis. -/
noncomputable def listenerUp : ℝ × ℝ × ℝ := (0, 1, 0)

/-- The engine calls of one iteration of the simulation loop
(3d_audio.cpp:95-127) at the given angle: push listener attributes, push
the emitter's 3D attributes, then the per-frame update. -/
noncomputable def tickCalls (angle : ℝ) : List ECall :=
  [ECall.setListenerAttributes listenerPos listenerVel listenerForward listenerUp,
   ECall.set3DAttributes (soundPos angle) (soundVel angle),
   ECall.systemUpdate]

/-- One iteration of the simulation loop: the engine calls it makes and the
angle it leaves for the next iteration (3d_audio.cpp:95-148). -/
noncomputable def simStep (angle : ℝ) : ℝ × List ECall :=
  (stepAngle angle, tickCalls angle)

/-- The engine calls of `n` iterations of the simulation loop starting at
the given angle. -/
noncomputable def simRun : ℕ → ℝ → List ECall
  | 0, _ => []
  | n + 1, a => tickCalls a ++ simRun n (stepAngle a)

/-- Recognizer for the per-frame update call. -/
def isSystemUpdate : ECall → Bool
  | ECall.systemUpdate => true
  | _ => false

/-- The emitter distance setup (3d_audio.cpp:69), parameterized over the
two distances: the code calls the engine's `set3DMinMaxDistance` directly,
with no validation of its own before the call. -/
def set3DMinMaxDistance (minDist maxDist : ℝ) : List ECall :=
  [ECall.setMinMaxDistance minDist maxDist]

/-- The whole program's engine-call trace (3d_audio.cpp:33-164) with `n`
loop iterations: create the sound, set min/max distance 1 and 100, play,
run the loop from angle 0, then stop and release. -/
noncomputable def programCalls (n : ℕ) (soundFile : String) : List ECall :=
  ECall.createSound soundFile :: set3DMinMaxDistance 1 100
    ++ [ECall.playSound] ++ simRun n 0
    ++ [ECall.stopChannel, ECall.releaseSound, ECall.releaseSystem]

end Spatial

namespace AudioManager

/-- C2: `loadSound` is idempotent on the name key: a second call with a
cached name returns success with the state (cache, creation count, trace)
fully unchanged, regardless of the path and streaming flag supplied; a
successful load of a new name inserts the asset and performs exactly one
engine resource creation. -/
theorem loadSound_idempotent :
    (∀ engine s name path isStream, (s.sounds.lookup name).isSome = true →
      loadSound engine s name path isStream = (true, s)) ∧
    (∀ engine s name path isStream h, s.sounds.lookup name = none →
      engine path isStream = some h →
      loadSound engine s name path isStream =
        (true, { s with sounds := (name, h) :: s.sounds,
                        creationCalls := s.creationCalls + 1,
                        trace := s.trace ++ [ACall.createSound path isStream] })) := by
  constructor
  · intro engine s name path isStream hcached
    simp [loadSound, hcached]
  · intro engine s name path isStream h hfresh heng
    simp [loadSound, hfresh, heng]

/-- Witness for C2 at concrete inputs: reloading the cached name "a" with a
different path and streaming flag changes nothing, and loading the fresh
name "x" succeeds with one creation. -/
theorem loadSound_idempotent_witness :
    ((stateW.sounds.lookup "a").isSome = true ∧
      loadSound engineOk stateW "a" "p2" true = (true, stateW)) ∧
    (initState.sounds.lookup "x" = none ∧ engineOk "px" false = some 0 ∧
      loadSound engineOk initState "x" "px" false =
        (true, { initState with sounds := ("x", 0) :: initState.sounds,
                                creationCalls := initState.creationCalls + 1,
                                trace := initState.trace ++ [ACall.createSound "px" false] })) :=
  ⟨⟨by decide, loadSound_idempotent.1 engineOk stateW "a" "p2" true (by decide)⟩,
   ⟨by decide, rfl, loadSound_idempotent.2 engineOk initState "x" "px" false 0 (by decide) rfl⟩⟩

/-- C4: on a name absent from the cache, `playSFX` and `playMusic` return
without any effect: the state, including the music slot, the channel pool
and the engine-call trace, is unchanged. -/
theorem notLoaded_noop :
    ∀ s name volume loopOn, s.sounds.lookup name = none →
      playSFX s name volume = s ∧ playMusic s name loopOn volume = s := by
  intro s name volume loopOn h
  constructor
  · simp [playSFX, h]
  · simp [playMusic, h]

/-- Witness for C4: playing the never-loaded name "x" on the fresh manager
leaves the state untouched. -/
theorem notLoaded_noop_witness :
    initState.sounds.lookup "x" = none ∧
    playSFX initState "x" 1 = initState ∧ playMusic initState "x" true 1 = initState :=
  ⟨by decide, (notLoaded_noop initState "x" 1 true (by decide)).1,
   (notLoaded_noop initState "x" 1 true (by decide)).2⟩

/-- C5: when the engine cannot create a resource from the locator,
`loadSound` leaves the cache map exactly as it was (on any name), and on a
name not yet cached it returns failure. -/
theorem loadSound_failure_unchanged :
    ∀ engine s name path isStream, engine path isStream = none →
      (loadSound engine s name path isStream).2.sounds = s.sounds ∧
      (s.sounds.lookup name = none → (loadSound engine s name path isStream).1 = false) := by
  intro engine s name path isStream heng
  by_cases hc : (s.sounds.lookup name).isSome = true
  · refine ⟨by simp [loadSound, hc], ?_⟩
    intro hn
    rw [hn] at hc
    simp at hc
  · have hn : s.sounds.lookup name = none := by
      cases hl : s.sounds.lookup name with
      | none => rfl
      | some v => rw [hl] at hc; simp at hc
    refine ⟨?_, fun _ => ?_⟩ <;> simp [loadSound, hn, heng]

/-- Witness for C5: a failing engine load of the fresh name "x" returns
false and leaves the (empty) cache unchanged. -/
theorem loadSound_failure_unchanged_witness :
    engineFail "px" false = none ∧
    (loadSound engineFail initState "x" "px" false).2.sounds = initState.sounds ∧
    (initState.sounds.lookup "x" = none ∧
      (loadSound engineFail initState "x" "px" false).1 = false) :=
  ⟨rfl, (loadSound_failure_unchanged engineFail initState "x" "px" false rfl).1,
   ⟨by decide, (loadSound_failure_unchanged engineFail initState "x" "px" false rfl).2 (by decide)⟩⟩

/-- C3 counterexample: the claim says `setCategoryVolume` and
`setMasterVolume` clamp the value to [0,1] before setting; at the concrete
value 2 the code stores 2 itself, while the specified clamp would store 1. -/
theorem setVolume_clamp_cex :
    (setCategoryVolume initState CATEGORY_SFX 2).sfxVolume = 2 ∧
    (setMasterVolume initState 2).masterVolume = 2 ∧
    clamp01 2 = 1 ∧ (2 : ℚ) ≠ clamp01 2 := by decide

/-- C3 amended: `setCategoryVolume` stores the given value as the
category's volume unchanged — no clamping to [0,1] is performed — and
`setMasterVolume` likewise; out-of-range values are passed through
silently, never reported as an error. -/
theorem setVolume_passthrough :
    ∀ s volume,
      (setCategoryVolume s CATEGORY_SFX volume).sfxVolume = volume ∧
      (setCategoryVolume s CATEGORY_MUSIC volume).musicVolume = volume ∧
      (setCategoryVolume s CATEGORY_VOICE volume).voiceVolume = volume ∧
      (setMasterVolume s volume).masterVolume = volume := by
  intro s volume
  exact ⟨rfl, rfl, rfl, rfl⟩

/-- C10: a category value outside the enumerated set resolves to the null
channel group, and `setCategoryVolume` on it is a silent no-op: no state
change and no engine call. -/
theorem unknownCategory_noop :
    ∀ category volume s, category ≠ CATEGORY_SFX → category ≠ CATEGORY_MUSIC →
      category ≠ CATEGORY_VOICE →
      getChannelGroup category = none ∧ setCategoryVolume s category volume = s := by
  intro c v s h0 h1 h2
  have hg : getChannelGroup c = none := by simp [getChannelGroup, h0, h1, h2]
  exact ⟨hg, by simp [setCategoryVolume, hg]⟩

/-- Witness for C10: category value 7 is outside the enumerated set; the
group is null and the call changes nothing. -/
theorem unknownCategory_noop_witness :
    (7 : Int) ≠ CATEGORY_SFX ∧ (7 : Int) ≠ CATEGORY_MUSIC ∧ (7 : Int) ≠ CATEGORY_VOICE ∧
    getChannelGroup 7 = none ∧ setCategoryVolume initState 7 5 = initState :=
  ⟨by decide, by decide, by decide,
   (unknownCategory_noop 7 5 initState (by decide) (by decide) (by decide)).1,
   (unknownCategory_noop 7 5 initState (by decide) (by decide) (by decide)).2⟩

end AudioManager

namespace Spatial

/-- The orbit radius is nonnegative. -/
lemma radius_nonneg : (0 : ℝ) ≤ radius := by
  unfold radius; norm_num

/-- C6: for every angle, the emitter position has Euclidean norm equal to
the radius and the doppler velocity is orthogonal to the position
(tangential); at angle 0, position is (radius, 0, 0) and velocity is
(0, 0, radius * angularSpeed). -/
theorem orbit_invariant :
    ∀ angle : ℝ,
      norm3 (soundPos angle) = radius ∧
      dot3 (soundVel angle) (soundPos angle) = 0 ∧
      soundPos 0 = (radius, 0, 0) ∧
      soundVel 0 = (0, 0, radius * angularSpeed) := by
  intro a
  refine ⟨?_, ?_, ?_, ?_⟩
  · show Real.sqrt ((radius * Real.cos a) ^ 2 + (0 : ℝ) ^ 2 + (radius * Real.sin a) ^ 2) = radius
    have hs := Real.sin_sq_add_cos_sq a
    have h : (radius * Real.cos a) ^ 2 + (0 : ℝ) ^ 2 + (radius * Real.sin a) ^ 2
        = radius ^ 2 := by nlinarith [hs]
    rw [h]
    exact Real.sqrt_sq radius_nonneg
  · show -(radius * angularSpeed * Real.sin a) * (radius * Real.cos a)
        + (0 : ℝ) * 0 + radius * angularSpeed * Real.cos a * (radius * Real.sin a) = 0
    ring
  · show (radius * Real.cos 0, (0 : ℝ), radius * Real.sin 0) = (radius, 0, 0)
    simp
  · show (-(radius * angularSpeed * Real.sin 0), (0 : ℝ),
        radius * angularSpeed * Real.cos 0) = (0, 0, radius * angularSpeed)
    simp

/-- The per-tick angle increment equals pi / 100. -/
lemma increment_eq : angularSpeed * updateInterval = Real.pi / 100 := by
  unfold angularSpeed updateInterval; ring

/-- For the first 200 ticks starting at angle 0, no wrap triggers and the
angle is exactly n * pi / 100. -/
lemma stepAngle_iterate (n : ℕ) (h : n ≤ 200) :
    stepAngle^[n] 0 = n * (Real.pi / 100) := by
  induction n with
  | zero => simp
  | succ k ih =>
    have hk : k ≤ 200 := Nat.le_of_succ_le h
    rw [Function.iterate_succ_apply', ih hk]
    unfold stepAngle
    rw [increment_eq]
    have hpi := Real.pi_pos
    have hcond : ¬ ((k : ℝ) * (Real.pi / 100) + Real.pi / 100 > 2 * Real.pi) := by
      push_neg
      have hk1 : ((k : ℝ) + 1) ≤ 200 := by exact_mod_cast h
      nlinarith
    rw [if_neg hcond]
    push_cast
    ring

/-- C7 counterexample: the 200th tick starting from angle 0 leaves the
angle exactly at 2 * pi, which is not in the half-open interval [0, 2 * pi):
the code only re-wraps when the angle strictly exceeds 2 * pi. -/
theorem angle_wrap_cex :
    stepAngle^[200] 0 = 2 * Real.pi ∧ ¬ (stepAngle^[200] 0 < 2 * Real.pi) := by
  have h : stepAngle^[200] (0 : ℝ) = 2 * Real.pi := by
    rw [stepAngle_iterate 200 (le_refl 200)]
    push_cast
    ring
  exact ⟨h, by rw [h]; exact lt_irrefl _⟩

/-- C7 amended: the per-tick angle update keeps the angle in the closed
interval [0, 2 * pi]: starting from any angle in [0, 2 * pi], the updated
angle is never negative and never exceeds 2 * pi (it can equal 2 * pi
exactly, which the next tick then wraps). -/
theorem angle_wrap_range :
    ∀ a : ℝ, 0 ≤ a → a ≤ 2 * Real.pi →
      0 ≤ stepAngle a ∧ stepAngle a ≤ 2 * Real.pi := by
  intro a h0 h2
  have hpi := Real.pi_pos
  unfold stepAngle
  rw [increment_eq]
  by_cases h : a + Real.pi / 100 > 2 * Real.pi
  · rw [if_pos h]
    constructor <;> nlinarith
  · rw [if_neg h]
    push_neg at h
    constructor <;> nlinarith

/-- Witness for the amended C7 at the initial angle 0. -/
theorem angle_wrap_range_witness :
    (0 : ℝ) ≤ 0 ∧ (0 : ℝ) ≤ 2 * Real.pi ∧
      (0 ≤ stepAngle 0 ∧ stepAngle 0 ≤ 2 * Real.pi) :=
  ⟨le_refl 0, by positivity, angle_wrap_range 0 (le_refl 0) (by positivity)⟩

/-- Each run of n loop iterations performs exactly n engine updates. -/
lemma simRun_update_count (n : ℕ) :
    ∀ a : ℝ, ((simRun n a).filter isSystemUpdate).length = n := by
  induction n with
  | zero => intro a; simp [simRun]
  | succ k ih =>
    intro a
    have hk := ih (stepAngle a)
    show ((tickCalls a ++ simRun k (stepAngle a)).filter isSystemUpdate).length = k + 1
    have h1 : ((tickCalls a).filter isSystemUpdate).length = 1 := rfl
    rw [List.filter_append, List.length_append, hk, h1]
    omega

/-- C8: every iteration of the simulation loop pushes the listener
attributes, then the emitter's 3D attributes, then makes exactly one
engine update, in that order — the update is last, after both pushes; and
n iterations make exactly n engine updates. -/
theorem tick_ordering :
    (∀ angle : ℝ,
      (simStep angle).2 =
        [ECall.setListenerAttributes listenerPos listenerVel listenerForward listenerUp,
         ECall.set3DAttributes (soundPos angle) (soundVel angle),
         ECall.systemUpdate] ∧
      ((simStep angle).2.filter isSystemUpdate).length = 1 ∧
      (simStep angle).2.getLast? = some ECall.systemUpdate ∧
      ∃ pre, (simStep angle).2 = pre ++ [ECall.systemUpdate] ∧
        ECall.setListenerAttributes listenerPos listenerVel listenerForward listenerUp ∈ pre ∧
        ECall.set3DAttributes (soundPos angle) (soundVel angle) ∈ pre) ∧
    (∀ (n : ℕ) (angle : ℝ), ((simRun n angle).filter isSystemUpdate).length = n) := by
  constructor
  · intro angle
    refine ⟨rfl, rfl, rfl,
      ⟨[ECall.setListenerAttributes listenerPos listenerVel listenerForward listenerUp,
        ECall.set3DAttributes (soundPos angle) (soundVel angle)], rfl, ?_, ?_⟩⟩
    · simp
    · simp
  · intro n angle
    exact simRun_update_count n angle

/-- C9 counterexample: the claim says a min distance greater than the max
distance fails validation before any engine call; but the emitter setup
performs the engine call unconditionally — at minDistance 5 and
maxDistance 1 the engine still receives the call, with no prior
validation. -/
theorem emitter_validation_cex :
    set3DMinMaxDistance 5 1 = [ECall.setMinMaxDistance 5 1] ∧
    (5 : ℝ) > 1 ∧ set3DMinMaxDistance 5 1 ≠ [] := by
  refine ⟨rfl, by norm_num, by simp [set3DMinMaxDistance]⟩

/-- The simulation loop never issues a min/max-distance call. -/
lemma simRun_no_minmax (n : ℕ) :
    ∀ (a mn mx : ℝ), ECall.setMinMaxDistance mn mx ∉ simRun n a := by
  induction n with
  | zero => intro a mn mx; simp [simRun]
  | succ k ih =>
    intro a mn mx
    have hk := ih (stepAngle a) mn mx
    simp [simRun, tickCalls, hk]

/-- C9 amended: the program performs no distance validation of its own —
the call reaches the engine unconditionally — but every min/max-distance
pair the program ever hands to the engine satisfies
0 ≤ minDistance ≤ maxDistance (the single call passes 1 and 100). -/
theorem engine_distances_valid :
    ∀ (n : ℕ) (soundFile : String) (mn mx : ℝ),
      ECall.setMinMaxDistance mn mx ∈ programCalls n soundFile →
      0 ≤ mn ∧ mn ≤ mx := by
  intro n f mn mx hmem
  have h := simRun_no_minmax n 0 mn mx
  simp [programCalls, set3DMinMaxDistance, h] at hmem
  obtain ⟨h1, h2⟩ := hmem
  subst h1
  subst h2
  norm_num

/-- Witness for the amended C9: the program's actual call passes 1 and 100,
which satisfy the constraint. -/
theorem engine_distances_valid_witness :
    (ECall.setMinMaxDistance 1 100 ∈ programCalls 0 "sound.wav") ∧
      (0 ≤ (1 : ℝ) ∧ (1 : ℝ) ≤ 100) :=
  ⟨by simp [programCalls, set3DMinMaxDistance, simRun],
   engine_distances_valid 0 "sound.wav" 1 100
     (by simp [programCalls, set3DMinMaxDistance, simRun])⟩

end Spatial

namespace AudioManager

/-- A channel index that reports playing is an allocated index. -/
lemma listPlaying_lt {cs : List Channel} {i : Nat} (h : listPlaying cs i = true) :
    i < cs.length := by
  by_contra hn
  push_neg at hn
  have hnone : cs[i]? = none := by
    rw [List.getElem?_eq_none_iff]
    exact hn
  simp [listPlaying, hnone] at h

/-- `setChannel` preserves the channel-pool size. -/
lemma length_setChannel (cs : List Channel) (i : Nat) (f : Channel → Channel) :
    (setChannel cs i f).length = cs.length := by
  unfold setChannel
  cases h : cs[i]? with
  | none => rfl
  | some c => simp

/-- `setChannel` at one index does not change playing at another. -/
lemma listPlaying_setChannel_ne (cs : List Channel) (i j : Nat) (f : Channel → Channel)
    (h : j ≠ i) : listPlaying (setChannel cs i f) j = listPlaying cs j := by
  unfold setChannel
  cases hg : cs[i]? with
  | none => rfl
  | some c =>
      unfold listPlaying
      rw [List.getElem?_set_ne (Ne.symm h)]

/-- Stopping a channel makes it report not playing (also vacuously for an
out-of-range index). -/
lemma listPlaying_setChannel_self_false (cs : List Channel) (i : Nat) :
    listPlaying (setChannel cs i (fun c => { c with playing := false })) i = false := by
  unfold setChannel
  cases hg : cs[i]? with
  | none =>
      unfold listPlaying
      rw [hg]
      rfl
  | some c =>
      have hi : i < cs.length := by
        by_contra hn
        push_neg at hn
        rw [List.getElem?_eq_none_iff.mpr hn] at hg
        exact Option.noConfusion hg
      unfold listPlaying
      rw [List.getElem?_set_eq_of_lt _ hi]
      rfl

/-- Changing only the paused flag of a channel does not change playing
anywhere. -/
lemma listPlaying_setChannel_paused (cs : List Channel) (i j : Nat) (p : Bool) :
    listPlaying (setChannel cs i (fun c => { c with paused := p })) j = listPlaying cs j := by
  by_cases hij : j = i
  · subst hij
    unfold setChannel
    cases hg : cs[j]? with
    | none => rfl
    | some c =>
        have hj : j < cs.length := by
          by_contra hn
          push_neg at hn
          rw [List.getElem?_eq_none_iff.mpr hn] at hg
          exact Option.noConfusion hg
        unfold listPlaying
        rw [List.getElem?_set_eq_of_lt _ hj, hg]
        rfl
  · exact listPlaying_setChannel_ne cs i j _ hij

/-- Appending a channel does not change playing at allocated indices. -/
lemma listPlaying_append_lt (cs : List Channel) (c : Channel) {j : Nat}
    (h : j < cs.length) : listPlaying (cs ++ [c]) j = listPlaying cs j := by
  unfold listPlaying
  rw [List.getElem?_append_left h]

end AudioManager

namespace AudioManager

/-- The stop-current block leaves the music-channel id list unchanged. -/
lemma scip_musicIds (s : AMState) :
    (stopCurrentIfPlaying s).musicIds = s.musicIds := by
  unfold stopCurrentIfPlaying
  split
  · split <;> rfl
  · rfl

/-- The stop-current block leaves the channel-pool size unchanged. -/
lemma scip_length (s : AMState) :
    (stopCurrentIfPlaying s).channels.length = s.channels.length := by
  unfold stopCurrentIfPlaying
  split
  · split
    · exact length_setChannel _ _ _
    · rfl
  · rfl

/-- The stop-current block leaves the sound cache unchanged. -/
lemma scip_sounds (s : AMState) :
    (stopCurrentIfPlaying s).sounds = s.sounds := by
  unfold stopCurrentIfPlaying
  split
  · split <;> rfl
  · rfl

/-- After the stop-current block, no music channel reports playing, given
the music invariant on the starting state. -/
lemma scip_no_playing (s : AMState) (h : MusicInv s) :
    ∀ i ∈ s.musicIds, listPlaying (stopCurrentIfPlaying s).channels i = false := by
  intro i hi
  unfold stopCurrentIfPlaying
  split
  · rename_i ch heq
    split
    · rename_i hp
      by_cases hich : i = ch
      · subst hich
        exact listPlaying_setChannel_self_false _ _
      · rw [listPlaying_setChannel_ne _ _ _ _ hich]
        rw [← Bool.not_eq_true]
        intro hit
        have h2 := h.2 i hi hit
        rw [heq] at h2
        exact hich (Option.some.inj h2).symm
    · rename_i hp
      rw [← Bool.not_eq_true]
      intro hit
      have h2 := h.2 i hi hit
      rw [heq] at h2
      have hich : i = ch := (Option.some.inj h2).symm
      subst hich
      exact hp hit
  · rename_i heq
    rw [← Bool.not_eq_true]
    intro hit
    have h2 := h.2 i hi hit
    rw [heq] at h2
    exact Option.noConfusion h2

/-- The music invariant is preserved by `loadSound`. -/
lemma musicInv_loadSound (engine : String → Bool → Option Nat) (s : AMState)
    (name path : String) (st : Bool) (h : MusicInv s) :
    MusicInv (loadSound engine s name path st).2 := by
  unfold loadSound
  by_cases hc : (s.sounds.lookup name).isSome = true
  · rw [if_pos hc]
    exact h
  · rw [if_neg hc]
    cases engine path st with
    | none => exact h
    | some hd => exact h

/-- The music invariant is preserved by `playSFX`. -/
lemma musicInv_playSFX (s : AMState) (name : String) (v : ℚ) (h : MusicInv s) :
    MusicInv (playSFX s name v) := by
  unfold playSFX
  by_cases hc : (s.sounds.lookup name).isSome = true
  · rw [if_pos hc]
    show MusicInvC (s.channels ++ [⟨true, false, v, false⟩]) s.musicIds s.currentMusicChannel
    constructor
    · intro i hi
      have := h.1 i hi
      rw [List.length_append, List.length_singleton]
      omega
    · intro i hi hp
      have hlt := h.1 i hi
      rw [listPlaying_append_lt _ _ hlt] at hp
      exact h.2 i hi hp
  · rw [if_neg hc]
    exact h

/-- The music invariant is preserved by `playMusic`. -/
lemma musicInv_playMusic (s : AMState) (name : String) (loopOn : Bool) (v : ℚ)
    (h : MusicInv s) : MusicInv (playMusic s name loopOn v) := by
  unfold playMusic
  by_cases hc : (s.sounds.lookup name).isSome = true
  · rw [if_pos hc]
    have hlen := scip_length s
    have hmids := scip_musicIds s
    have hnp := scip_no_playing s h
    show MusicInvC
      ((stopCurrentIfPlaying s).channels ++ [⟨true, false, v, loopOn⟩])
      ((stopCurrentIfPlaying s).channels.length :: (stopCurrentIfPlaying s).musicIds)
      (some (stopCurrentIfPlaying s).channels.length)
    constructor
    · intro i hi
      rw [List.length_append, List.length_singleton]
      rcases List.mem_cons.mp hi with h1 | h1
      · omega
      · rw [hmids] at h1
        have h2 := h.1 i h1
        omega
    · intro i hi hp
      rcases List.mem_cons.mp hi with h1 | h1
      · rw [h1]
      · rw [hmids] at h1
        have h2 : i < (stopCurrentIfPlaying s).channels.length := by
          rw [hlen]
          exact h.1 i h1
        rw [listPlaying_append_lt _ _ h2] at hp
        rw [hnp i h1] at hp
        exact Bool.noConfusion hp
  · rw [if_neg hc]
    exact h

/-- The music invariant is preserved by `stopMusic`. -/
lemma musicInv_stopMusic (s : AMState) (h : MusicInv s) : MusicInv (stopMusic s) := by
  unfold stopMusic
  split
  · rename_i ch heq
    show MusicInvC (setChannel s.channels ch (fun c => { c with playing := false }))
      s.musicIds none
    constructor
    · intro i hi
      rw [length_setChannel]
      exact h.1 i hi
    · intro i hi hp
      by_cases hich : i = ch
      · subst hich
        rw [listPlaying_setChannel_self_false] at hp
        exact Bool.noConfusion hp
      · rw [listPlaying_setChannel_ne _ _ _ _ hich] at hp
        have h2 := h.2 i hi hp
        rw [heq] at h2
        exact absurd (Option.some.inj h2).symm hich
  · exact h

/-- The music invariant is preserved by `pauseMusic`. -/
lemma musicInv_pauseMusic (s : AMState) (p : Bool) (h : MusicInv s) :
    MusicInv (pauseMusic s p) := by
  unfold pauseMusic
  split
  · rename_i ch heq
    show MusicInvC (setChannel s.channels ch (fun c => { c with paused := p }))
      s.musicIds s.currentMusicChannel
    constructor
    · intro i hi
      rw [length_setChannel]
      exact h.1 i hi
    · intro i hi hp
      rw [listPlaying_setChannel_paused] at hp
      exact h.2 i hi hp
  · exact h

/-- The music invariant is preserved by `setCategoryVolume`. -/
lemma musicInv_setCategoryVolume (s : AMState) (c : Int) (v : ℚ) (h : MusicInv s) :
    MusicInv (setCategoryVolume s c v) := by
  unfold setCategoryVolume
  split <;> exact h

/-- The music invariant is preserved by every public operation. -/
lemma musicInv_applyOp (engine : String → Bool → Option Nat) (s : AMState) (op : Op)
    (h : MusicInv s) : MusicInv (applyOp engine s op) := by
  cases op with
  | load n p st => exact musicInv_loadSound engine s n p st h
  | sfx n v => exact musicInv_playSFX s n v h
  | music n l v => exact musicInv_playMusic s n l v h
  | pause p => exact musicInv_pauseMusic s p h
  | stopM => exact musicInv_stopMusic s h
  | setVol c v => exact musicInv_setCategoryVolume s c v h
  | setMaster v => exact h

/-- The music invariant holds in the freshly initialized state. -/
lemma musicInv_init : MusicInv initState := by
  refine ⟨?_, ?_⟩ <;> intro i hi <;> simp [initState] at hi

/-- The music invariant holds after every call sequence. -/
lemma musicInv_run (engine : String → Bool → Option Nat) (ops : List Op) :
    MusicInv (run engine ops) := by
  suffices hgen : ∀ s, MusicInv s → MusicInv (ops.foldl (applyOp engine) s) from
    hgen initState musicInv_init
  induction ops with
  | nil => intro s h; exact h
  | cons op rest ih =>
      intro s h
      exact ih _ (musicInv_applyOp engine s op h)

/-- The music invariant entails single-active-music. -/
lemma atMostOne_of_inv {s : AMState} (h : MusicInv s) : atMostOneActiveMusic s := by
  intro i hi j hj hpi hpj
  have h1 := h.2 i hi hpi
  have h2 := h.2 j hj hpj
  rw [h1] at h2
  exact Option.some.inj h2

/-- C1: (a) after any sequence of manager calls from the initialized state,
at most one music channel reports playing; (b) when `playMusic` is called
with a loaded name while the music slot holds a channel that reports
playing, that channel is stopped and reports not-playing afterwards, and the
slot is replaced by the freshly allocated handle, which is distinct from
the prior one. -/
theorem playMusic_single_active :
    (∀ engine ops, atMostOneActiveMusic (run engine ops)) ∧
    (∀ s name loopOn volume ch, s.currentMusicChannel = some ch →
      chPlaying s ch = true → (s.sounds.lookup name).isSome = true →
      chPlaying (playMusic s name loopOn volume) ch = false ∧
      (playMusic s name loopOn volume).currentMusicChannel = some s.channels.length ∧
      ch ≠ s.channels.length) := by
  constructor
  · intro engine ops
    exact atMostOne_of_inv (musicInv_run engine ops)
  · intro s name loopOn volume ch hcur hp hcached
    have hlt : ch < s.channels.length := listPlaying_lt hp
    have hch : stopCurrentIfPlaying s
        = { s with channels := setChannel s.channels ch (fun c => { c with playing := false }),
                   trace := s.trace ++ [ACall.isPlayingQuery ch, ACall.stopCh ch] } := by
      unfold stopCurrentIfPlaying
      rw [hcur]
      exact if_pos hp
    have hlen1 : (stopCurrentIfPlaying s).channels.length = s.channels.length := scip_length s
    unfold playMusic
    rw [if_pos hcached]
    refine ⟨?_, ?_, ?_⟩
    · show listPlaying
        ((stopCurrentIfPlaying s).channels ++ [⟨true, false, volume, loopOn⟩]) ch = false
      rw [listPlaying_append_lt _ _ (by rw [hlen1]; exact hlt), hch]
      exact listPlaying_setChannel_self_false _ _
    · show some (stopCurrentIfPlaying s).channels.length = some s.channels.length
      rw [hlen1]
    · omega

/-- Witness for C1: the empty call sequence satisfies single-active-music,
and in the concrete state with "a" playing in the slot, playing "b" stops
the prior channel 0, which then reports not-playing, while the slot moves
to the fresh channel 1. -/
theorem playMusic_single_active_witness :
    atMostOneActiveMusic (run engineOk []) ∧
    (stateW.currentMusicChannel = some 0 ∧ chPlaying stateW 0 = true ∧
      (stateW.sounds.lookup "b").isSome = true ∧
      chPlaying (playMusic stateW "b" true 1) 0 = false ∧
      (playMusic stateW "b" true 1).currentMusicChannel = some stateW.channels.length ∧
      (0 : Nat) ≠ stateW.channels.length) :=
  ⟨playMusic_single_active.1 engineOk [],
   by decide, by decide, by decide,
   (playMusic_single_active.2 stateW "b" true 1 0 (by decide) (by decide) (by decide)).1,
   (playMusic_single_active.2 stateW "b" true 1 0 (by decide) (by decide) (by decide)).2.1,
   (playMusic_single_active.2 stateW "b" true 1 0 (by decide) (by decide) (by decide)).2.2⟩

end AudioManager
